import Mathlib

/-!
Verification of the normalization and incremental time-series merge engine of the
sentiment-multi-scraper repository.

Numeric code is embedded over the rationals (the Python source computes with
floats, but every claim under scrutiny is about exact decimal data, so the exact
rational semantics is the intended idealization).  Fallible code (the Python
branch that divides by a zero moving average and raises ZeroDivisionError) is
embedded with an Option result, where the value none marks the raised exception.
-/

namespace SentimentScraper

/-! ## Normalization functions, from src/webendpoint_json_data.py -/

/-- the Python builtin max on two arguments (first argument wins ties). -/
def pymax (a b : ℚ) : ℚ :=
  if b ≤ a then a else b

/-- the Python builtin min on two arguments (first argument wins ties). -/
def pymin (a b : ℚ) : ℚ :=
  if a ≤ b then a else b

/-- Embedding of clamp (webendpoint_json_data.py, lines 50-52); the Python
signature is clamp(value, min_val=-50, max_val=50) and the body is
max(min_val, min(max_val, value)). -/
def clamp (value min_val max_val : ℚ) : ℚ :=
  pymax min_val (pymin max_val value)

/-- clamp at the Python default bounds -50 and 50, i.e. clamp(value). -/
def clamp50 (value : ℚ) : ℚ :=
  clamp value (-50) 50

/-- Embedding of normalize_cnn_component (webendpoint_json_data.py, lines
55-123).  The historical_data argument is the list of raw y values of the
history entries (the Python code only ever reads d["y"]).  The branch for
market_momentum_sp125 with at least 365 points divides by the moving average
ma365 without guarding against zero; when ma365 is zero Python raises
ZeroDivisionError, modelled here as none.  Every other outcome is some. -/
def normalize_cnn_component (component_name : String) (value : ℚ)
    (historical_data : List ℚ) : Option ℚ :=
  if component_name = ("put_call_options") then
    some (clamp50 (value / 2 * 100 - 50))
  else if component_name = ("junk_bond_demand") then
    some (clamp50 ((value - 0.5) / 1.5 * 100 - 50))
  else if component_name = ("safe_haven_demand") ∨
      component_name = ("stock_price_strength") then
    some (clamp50 (value * 2.5))
  else if component_name = ("stock_price_breadth") then
    some (clamp50 ((value - 500) / 1500 * 100 - 50))
  else if component_name = ("market_volatility_vix") ∨
      component_name = ("market_volatility_vix_50") then
    some (clamp50 (value - 50))
  else if component_name = ("market_momentum_sp125") then
    if 365 ≤ historical_data.length then
      let recent_values := historical_data.drop (historical_data.length - 365)
      let ma365 := recent_values.sum / (recent_values.length : ℚ)
      if ma365 = 0 then
        none
      else
        some (clamp50 ((value - ma365) / ma365 * 100 * 5))
    else if 0 < historical_data.length then
      let ma := historical_data.sum / (historical_data.length : ℚ)
      if ma ≠ 0 then
        some (clamp50 ((value - ma) / ma * 100 * 5))
      else
        some 0
    else
      some 0
  else
    some (clamp50 (value - 50))

/-- Embedding of normalize_aaii_sentiment (webendpoint_json_data.py,
lines 126-132). -/
def normalize_aaii_sentiment (value : ℚ) : ℚ :=
  clamp50 (value - 50)

/-- Embedding of calculate_aaii_composite (webendpoint_json_data.py,
lines 135-151). -/
def calculate_aaii_composite (bullish bearish neutral : ℚ) : ℚ :=
  let fear_greed := bullish - bearish
  let conviction_squared := (1 - neutral / 100) ^ 2
  let composite := fear_greed * conviction_squared
  clamp50 composite

/-! ## Python rounding

The merge pipeline rounds to one decimal with the Python builtin round, which
rounds half to even. -/

/-- Round a rational to the nearest integer, ties to even (the rule of the
Python builtin round). -/
def roundHalfEven (q : ℚ) : ℤ :=
  if q - ⌊q⌋ < 1 / 2 then ⌊q⌋
  else if 1 / 2 < q - ⌊q⌋ then ⌊q⌋ + 1
  else if 2 ∣ ⌊q⌋ then ⌊q⌋ else ⌊q⌋ + 1

/-- round(q, 1) of Python: round half to even at one decimal place. -/
def round1 (q : ℚ) : ℚ :=
  (roundHalfEven (q * 10) : ℚ) / 10

/-- Embedding of convert_sentiment (transfer_ocr_to_csv.py, lines 133-143):
return round(long_pct - 50, 1).  There is no clamp in this function. -/
def convert_sentiment (long_pct : ℚ) : ℚ :=
  round1 (long_pct - 50)

/-! ## Branch-selection equations for normalize_cnn_component -/

theorem ncc_put_call (v : ℚ) (h : List ℚ) :
    normalize_cnn_component ("put_call_options") v h =
      some (clamp50 (v / 2 * 100 - 50)) := rfl

theorem ncc_junk_bond (v : ℚ) (h : List ℚ) :
    normalize_cnn_component ("junk_bond_demand") v h =
      some (clamp50 ((v - 0.5) / 1.5 * 100 - 50)) := rfl

theorem ncc_safe_haven (v : ℚ) (h : List ℚ) :
    normalize_cnn_component ("safe_haven_demand") v h =
      some (clamp50 (v * 2.5)) := rfl

theorem ncc_strength (v : ℚ) (h : List ℚ) :
    normalize_cnn_component ("stock_price_strength") v h =
      some (clamp50 (v * 2.5)) := rfl

theorem ncc_breadth (v : ℚ) (h : List ℚ) :
    normalize_cnn_component ("stock_price_breadth") v h =
      some (clamp50 ((v - 500) / 1500 * 100 - 50)) := rfl

theorem ncc_vix (v : ℚ) (h : List ℚ) :
    normalize_cnn_component ("market_volatility_vix") v h =
      some (clamp50 (v - 50)) := rfl

theorem ncc_vix50 (v : ℚ) (h : List ℚ) :
    normalize_cnn_component ("market_volatility_vix_50") v h =
      some (clamp50 (v - 50)) := rfl

theorem ncc_momentum (v : ℚ) (h : List ℚ) :
    normalize_cnn_component ("market_momentum_sp125") v h =
      (if 365 ≤ h.length then
        (let recent_values := h.drop (h.length - 365)
         let ma365 := recent_values.sum / (recent_values.length : ℚ)
         if ma365 = 0 then none
         else some (clamp50 ((v - ma365) / ma365 * 100 * 5)))
      else if 0 < h.length then
        (let ma := h.sum / (h.length : ℚ)
         if ma ≠ 0 then some (clamp50 ((v - ma) / ma * 100 * 5))
         else some 0)
      else some 0) := rfl

/-! ## Basic bounds -/

theorem pymin_le_left (a b : ℚ) : pymin a b ≤ a := by
  unfold pymin
  split
  · exact le_refl a
  · exact le_of_not_le (by assumption)

theorem le_pymax_left (a b : ℚ) : a ≤ pymax a b := by
  unfold pymax
  split
  · exact le_refl a
  · exact le_of_not_le (by assumption)

theorem pymax_le (a b c : ℚ) (h1 : a ≤ c) (h2 : b ≤ c) : pymax a b ≤ c := by
  unfold pymax
  split <;> assumption

theorem clamp50_le (x : ℚ) : clamp50 x ≤ 50 :=
  pymax_le _ _ _ (by norm_num) (pymin_le_left 50 x)

theorem le_clamp50 (x : ℚ) : -50 ≤ clamp50 x := le_pymax_left _ _

theorem roundHalfEven_bounds (q : ℚ) :
    q - 1 / 2 ≤ (roundHalfEven q : ℚ) ∧ (roundHalfEven q : ℚ) ≤ q + 1 / 2 := by
  have h1 : (⌊q⌋ : ℚ) ≤ q := Int.floor_le q
  have h2 : q < (⌊q⌋ : ℚ) + 1 := Int.lt_floor_add_one q
  unfold roundHalfEven
  split
  · constructor <;> [linarith; linarith]
  · split
    · push_cast
      constructor <;> [linarith; linarith]
    · split
      · constructor <;> [linarith; linarith]
      · push_cast
        constructor <;> [linarith; linarith]

theorem roundHalfEven_intCast (n : ℤ) : roundHalfEven (n : ℚ) = n := by
  simp [roundHalfEven]

theorem round1_eq_of_mul_ten (q : ℚ) (n : ℤ) (h : q * 10 = (n : ℚ)) :
    round1 q = (n : ℚ) / 10 := by
  unfold round1
  rw [h, roundHalfEven_intCast]

theorem round1_mem_Icc {q : ℚ} (h0 : -50 ≤ q) (h1 : q ≤ 50) :
    -50 ≤ round1 q ∧ round1 q ≤ 50 := by
  obtain ⟨hl, hu⟩ := roundHalfEven_bounds (q * 10)
  have hu1 : (roundHalfEven (q * 10) : ℚ) ≤ 500 + 1 / 2 := by linarith
  have hl1 : -(500 + 1 / 2 : ℚ) ≤ (roundHalfEven (q * 10) : ℚ) := by linarith
  have hu2 : roundHalfEven (q * 10) ≤ 500 := by
    have h3 := Int.le_floor.mpr hu1
    have h4 : (⌊(500 + 1 / 2 : ℚ)⌋ : ℤ) = 500 := by norm_num
    omega
  have hl2 : (-500 : ℤ) ≤ roundHalfEven (q * 10) := by
    by_contra hcon
    push_neg at hcon
    have h3 : roundHalfEven (q * 10) ≤ -501 := by omega
    have h4 : (roundHalfEven (q * 10) : ℚ) ≤ -501 := by exact_mod_cast h3
    linarith
  have hu3 : (roundHalfEven (q * 10) : ℚ) ≤ 500 := by exact_mod_cast hu2
  have hl3 : (-500 : ℚ) ≤ (roundHalfEven (q * 10) : ℚ) := by exact_mod_cast hl2
  unfold round1
  constructor
  · linarith
  · linarith

theorem some_clamp50_case {e r : ℚ} (h : some (clamp50 e) = some r) :
    -50 ≤ r ∧ r ≤ 50 := by
  injection h with h2
  subst h2
  exact ⟨le_clamp50 _, clamp50_le _⟩

theorem some_zero_case {r : ℚ} (h : (some 0 : Option ℚ) = some r) :
    -50 ≤ r ∧ r ≤ 50 := by
  injection h with h2
  subst h2
  norm_num

/-- whenever normalize_cnn_component returns a value (it does not raise), that
value lies in the closed interval from -50 to 50, for every component name,
raw value and history. -/
theorem ncc_range (name : String) (v : ℚ) (hist : List ℚ) (r : ℚ)
    (h : normalize_cnn_component name v hist = some r) : -50 ≤ r ∧ r ≤ 50 := by
  unfold normalize_cnn_component at h
  split at h
  · exact some_clamp50_case h
  · split at h
    · exact some_clamp50_case h
    · split at h
      · exact some_clamp50_case h
      · split at h
        · exact some_clamp50_case h
        · split at h
          · exact some_clamp50_case h
          · split at h
            · split at h
              · simp only [] at h
                split at h
                · exact Option.noConfusion h
                · exact some_clamp50_case h
              · split at h
                · simp only [] at h
                  split at h
                  · exact some_clamp50_case h
                  · exact some_zero_case h
                · exact some_zero_case h
            · exact some_clamp50_case h

/-- claim C1 fails as stated: convert_sentiment applies no clamp, so the
out-of-domain input 200 is mapped to 150, outside the interval from -50
to 50. -/
theorem claim_C1_counterexample :
    ¬ (-50 ≤ convert_sentiment 200 ∧ convert_sentiment 200 ≤ 50) := by
  unfold convert_sentiment
  rw [round1_eq_of_mul_ten _ 1500 (by norm_num)]
  norm_num

/-- claim C1 amended: normalize_cnn_component (whenever it returns a value),
normalize_aaii_sentiment and calculate_aaii_composite return values in the
closed interval from -50 to 50 for every numeric input, including inputs
outside the documented domains; convert_sentiment has no clamp, and its
result is guaranteed to lie in that interval only when its input lies in the
documented domain from 0 to 100. -/
theorem claim_C1_amended :
    (∀ (name : String) (v : ℚ) (hist : List ℚ) (r : ℚ),
        normalize_cnn_component name v hist = some r → -50 ≤ r ∧ r ≤ 50) ∧
    (∀ v : ℚ, -50 ≤ normalize_aaii_sentiment v ∧ normalize_aaii_sentiment v ≤ 50) ∧
    (∀ bullish bearish neutral : ℚ,
        -50 ≤ calculate_aaii_composite bullish bearish neutral ∧
          calculate_aaii_composite bullish bearish neutral ≤ 50) ∧
    (∀ p : ℚ, 0 ≤ p → p ≤ 100 →
        -50 ≤ convert_sentiment p ∧ convert_sentiment p ≤ 50) := by
  refine ⟨ncc_range, ?_, ?_, ?_⟩
  · intro v
    exact ⟨le_clamp50 _, clamp50_le _⟩
  · intro bullish bearish neutral
    exact ⟨le_clamp50 _, clamp50_le _⟩
  · intro p h0 h1
    unfold convert_sentiment
    exact round1_mem_Icc (by linarith) (by linarith)

/-- witness for claim C1 amended: the put-call rule clamps the out-of-domain
input 999 to 50, and convert_sentiment maps the in-domain input 100 into the
interval. -/
theorem claim_C1_witness :
    (-50 ≤ (50 : ℚ) ∧ (50 : ℚ) ≤ 50) ∧
    (-50 ≤ convert_sentiment 100 ∧ convert_sentiment 100 ≤ 50) :=
  ⟨claim_C1_amended.1 ("put_call_options") 999 [] 50
      (by rw [ncc_put_call]; norm_num [clamp50, clamp, pymax, pymin]),
   claim_C1_amended.2.2.2 100 (by norm_num) (by norm_num)⟩

/-- claim C3 fails as stated: for the oscillator component, a window of 365
values whose mean is zero does not yield the neutral value 0; the Python code
divides by the zero moving average and raises ZeroDivisionError (modelled as
none). -/
theorem claim_C3_counterexample :
    normalize_cnn_component ("market_momentum_sp125") 1 (List.replicate 365 0) = none ∧
    normalize_cnn_component ("market_momentum_sp125") 1 (List.replicate 365 0) ≠ some 0 := by
  have h : normalize_cnn_component ("market_momentum_sp125") 1 (List.replicate 365 0) = none := by
    rw [ncc_momentum]
    norm_num
  exact ⟨h, by rw [h]; simp⟩

/-- claim C3 amended: the oscillator normalization returns exactly 0 when the
historical window is empty, and when the window is nonempty with fewer than
365 values and zero mean; but when the window has 365 or more values the code
divides by the mean of the last 365 values without a zero guard, so it fails
(raises ZeroDivisionError, modelled as none) exactly when that mean is zero,
and this is its only failure mode. -/
theorem claim_C3_amended (v : ℚ) (hist : List ℚ) :
    (hist = [] → normalize_cnn_component ("market_momentum_sp125") v hist = some 0) ∧
    (hist ≠ [] → hist.length < 365 → hist.sum / (hist.length : ℚ) = 0 →
      normalize_cnn_component ("market_momentum_sp125") v hist = some 0) ∧
    (normalize_cnn_component ("market_momentum_sp125") v hist = none ↔
      365 ≤ hist.length ∧
        (hist.drop (hist.length - 365)).sum /
          ((hist.drop (hist.length - 365)).length : ℚ) = 0) := by
  refine ⟨?_, ?_, ?_⟩
  · intro he
    subst he
    rw [ncc_momentum]
    norm_num
  · intro h1 h2 h3
    rw [ncc_momentum]
    have hl : 0 < hist.length := List.length_pos.mpr h1
    rw [if_neg (by omega), if_pos hl]
    simp only [h3]
    norm_num
  · rw [ncc_momentum]
    by_cases hc : 365 ≤ hist.length
    · rw [if_pos hc]
      simp only []
      by_cases hz : (hist.drop (hist.length - 365)).sum /
          ((hist.drop (hist.length - 365)).length : ℚ) = 0
      · simp [hz, hc]
      · simp [hz, hc]
    · rw [if_neg hc]
      by_cases hl : 0 < hist.length
      · rw [if_pos hl]
        simp only [hc, false_and, iff_false]
        split <;> simp
      · rw [if_neg hl]
        simp [hc]

/-- witness for claim C3 amended: the empty window and the nonempty
zero-mean short window both yield the neutral value 0. -/
theorem claim_C3_witness :
    normalize_cnn_component ("market_momentum_sp125") 1 [] = some 0 ∧
    normalize_cnn_component ("market_momentum_sp125") 1 [0] = some 0 :=
  ⟨(claim_C3_amended 1 []).1 rfl,
   (claim_C3_amended 1 [0]).2.1 (by simp) (by simp) (by simp)⟩

/-- claim C2: every fixed-domain normalization rule sends the three anchor
points of its documented domain exactly to -50, 0 and +50: put_call_options
0, 1, 2; junk_bond_demand 0.5, 1.25, 2; safe_haven_demand and
stock_price_strength -20, 0, 20; stock_price_breadth 500, 1250, 2000;
market_volatility_vix and market_volatility_vix_50 0, 50, 100; and the survey
and long-short percentage rules 0, 50, 100.  The historical-data argument is
the Python default (None, i.e. the empty history). -/
theorem claim_C2_anchor_points :
    normalize_cnn_component ("put_call_options") 0 [] = some (-50) ∧
    normalize_cnn_component ("put_call_options") 1 [] = some 0 ∧
    normalize_cnn_component ("put_call_options") 2 [] = some 50 ∧
    normalize_cnn_component ("junk_bond_demand") 0.5 [] = some (-50) ∧
    normalize_cnn_component ("junk_bond_demand") 1.25 [] = some 0 ∧
    normalize_cnn_component ("junk_bond_demand") 2 [] = some 50 ∧
    normalize_cnn_component ("safe_haven_demand") (-20) [] = some (-50) ∧
    normalize_cnn_component ("safe_haven_demand") 0 [] = some 0 ∧
    normalize_cnn_component ("safe_haven_demand") 20 [] = some 50 ∧
    normalize_cnn_component ("stock_price_strength") (-20) [] = some (-50) ∧
    normalize_cnn_component ("stock_price_strength") 0 [] = some 0 ∧
    normalize_cnn_component ("stock_price_strength") 20 [] = some 50 ∧
    normalize_cnn_component ("stock_price_breadth") 500 [] = some (-50) ∧
    normalize_cnn_component ("stock_price_breadth") 1250 [] = some 0 ∧
    normalize_cnn_component ("stock_price_breadth") 2000 [] = some 50 ∧
    normalize_cnn_component ("market_volatility_vix") 0 [] = some (-50) ∧
    normalize_cnn_component ("market_volatility_vix") 50 [] = some 0 ∧
    normalize_cnn_component ("market_volatility_vix") 100 [] = some 50 ∧
    normalize_cnn_component ("market_volatility_vix_50") 0 [] = some (-50) ∧
    normalize_cnn_component ("market_volatility_vix_50") 50 [] = some 0 ∧
    normalize_cnn_component ("market_volatility_vix_50") 100 [] = some 50 ∧
    normalize_aaii_sentiment 0 = -50 ∧
    normalize_aaii_sentiment 50 = 0 ∧
    normalize_aaii_sentiment 100 = 50 ∧
    convert_sentiment 0 = -50 ∧
    convert_sentiment 50 = 0 ∧
    convert_sentiment 100 = 50 :=
  ⟨by rw [ncc_put_call]; norm_num [clamp50, clamp, pymax, pymin],
   by rw [ncc_put_call]; norm_num [clamp50, clamp, pymax, pymin],
   by rw [ncc_put_call]; norm_num [clamp50, clamp, pymax, pymin],
   by rw [ncc_junk_bond]; norm_num [clamp50, clamp, pymax, pymin],
   by rw [ncc_junk_bond]; norm_num [clamp50, clamp, pymax, pymin],
   by rw [ncc_junk_bond]; norm_num [clamp50, clamp, pymax, pymin],
   by rw [ncc_safe_haven]; norm_num [clamp50, clamp, pymax, pymin],
   by rw [ncc_safe_haven]; norm_num [clamp50, clamp, pymax, pymin],
   by rw [ncc_safe_haven]; norm_num [clamp50, clamp, pymax, pymin],
   by rw [ncc_strength]; norm_num [clamp50, clamp, pymax, pymin],
   by rw [ncc_strength]; norm_num [clamp50, clamp, pymax, pymin],
   by rw [ncc_strength]; norm_num [clamp50, clamp, pymax, pymin],
   by rw [ncc_breadth]; norm_num [clamp50, clamp, pymax, pymin],
   by rw [ncc_breadth]; norm_num [clamp50, clamp, pymax, pymin],
   by rw [ncc_breadth]; norm_num [clamp50, clamp, pymax, pymin],
   by rw [ncc_vix]; norm_num [clamp50, clamp, pymax, pymin],
   by rw [ncc_vix]; norm_num [clamp50, clamp, pymax, pymin],
   by rw [ncc_vix]; norm_num [clamp50, clamp, pymax, pymin],
   by rw [ncc_vix50]; norm_num [clamp50, clamp, pymax, pymin],
   by rw [ncc_vix50]; norm_num [clamp50, clamp, pymax, pymin],
   by rw [ncc_vix50]; norm_num [clamp50, clamp, pymax, pymin],
   by norm_num [normalize_aaii_sentiment, clamp50, clamp, pymax, pymin],
   by norm_num [normalize_aaii_sentiment, clamp50, clamp, pymax, pymin],
   by norm_num [normalize_aaii_sentiment, clamp50, clamp, pymax, pymin],
   by unfold convert_sentiment
      rw [round1_eq_of_mul_ten _ (-500) (by norm_num)]; norm_num,
   by unfold convert_sentiment
      rw [round1_eq_of_mul_ten _ 0 (by norm_num)]; norm_num,
   by unfold convert_sentiment
      rw [round1_eq_of_mul_ten _ 500 (by norm_num)]; norm_num⟩

/-- claim C6: calculate_aaii_composite is exactly the clamped product of the
bullish-bearish spread with the squared conviction factor, for all rational
inputs; in particular it maps (75, 25, 0) to 50 and (50, 50, 100) to 0. -/
theorem claim_C6_composite_formula :
    (∀ bullish bearish neutral : ℚ,
        calculate_aaii_composite bullish bearish neutral =
          clamp ((bullish - bearish) * (1 - neutral / 100) ^ 2) (-50) 50) ∧
    calculate_aaii_composite 75 25 0 = 50 ∧
    calculate_aaii_composite 50 50 100 = 0 := by
  refine ⟨fun bullish bearish neutral => rfl, ?_, ?_⟩
  · norm_num [calculate_aaii_composite, clamp50, clamp, pymax, pymin]
  · norm_num [calculate_aaii_composite, clamp50, clamp, pymax, pymin]



/-! ## Series Store, from append_to_csv (src/webendpoint_json_data.py, lines 164-196)

A persisted series file is modelled as a list of rows, each row a list of
string fields, exactly as the csv module hands rows to the Python code.  The
value written for a new point is the already-formatted value string, so no
numeric computation happens at this layer. -/

/-- one CSV record: a list of string fields. -/
abbrev Row := List String

/-- the date key of a row, row[0]; the Python code only indexes row[0] after
checking len(row) >= 6, so the default for the empty row is never used. -/
def rowKey (r : Row) : String := r.headD ("")

/-- the row filter of append_to_csv line 178: len(row) >= 6 and
len(row[0]) == 9. -/
abbrev isValidRow (r : Row) : Prop := 6 ≤ r.length ∧ (rowKey r).length = 9

/-- Embedding of the load-and-deduplicate loop of append_to_csv (lines
174-181): walk the rows of the existing file, keep each valid row whose date
key was not seen before, and accumulate the set of seen keys.  Returns the
pair (valid_existing_data, seen_timestamps). -/
def loadValid : List Row → List String → List Row × List String
  | [], seen => ([], seen)
  | r :: rs, seen =>
    if isValidRow r ∧ rowKey r ∉ seen then
      ((r :: (loadValid rs (rowKey r :: seen)).1), (loadValid rs (rowKey r :: seen)).2)
    else
      loadValid rs seen

/-- Embedding of the add-new-data loop of append_to_csv (lines 183-187): for
each incoming (timestamp, value) pair whose key is unseen and 9 characters
long, append the OHLC-shaped row [timestamp, value, value, value, value, 0]
and record the key as seen. -/
def addNew : List (String × String) → List String → List Row × List String
  | [], seen => ([], seen)
  | (t, v) :: rest, seen =>
    if t ∉ seen ∧ t.length = 9 then
      (([t, v, v, v, v, "0"] :: (addNew rest (t :: seen)).1), (addNew rest (t :: seen)).2)
    else
      addNew rest seen

/-- comparison used by sorted(valid_existing_data, key=lambda x: x[0]) at
line 190: rows are ordered by their date-key string. -/
def rowLe (a b : Row) : Bool := decide (rowKey a ≤ rowKey b)

/-- Embedding of append_to_csv (lines 164-196): load and deduplicate the
existing rows, append the accepted new rows, and stably sort everything by
date key (Python sorted is a stable sort, as is List.mergeSort).  The result
is the full list of rows written back to the file. -/
def append_to_csv (existing : List Row) (new_data : List (String × String)) : List Row :=
  List.mergeSort
    ((loadValid existing []).1 ++ (addNew new_data (loadValid existing []).2).1)
    rowLe

theorem loadValid_mem : ∀ (rows : List Row) (seen : List String) (r : Row),
    r ∈ (loadValid rows seen).1 → isValidRow r ∧ rowKey r ∉ seen := by
  intro rows
  induction rows with
  | nil => intro seen r h; simp [loadValid] at h
  | cons a rs ih =>
    intro seen r h
    rw [loadValid] at h
    split at h
    · rcases List.mem_cons.mp h with h1 | h1
      · subst h1
        assumption
      · obtain ⟨hv, hk⟩ := ih (rowKey a :: seen) r h1
        exact ⟨hv, fun hmem => hk (List.mem_cons_of_mem _ hmem)⟩
    · exact ih seen r h

theorem loadValid_seen : ∀ (rows : List Row) (seen : List String) (k : String),
    k ∈ (loadValid rows seen).2 ↔
      k ∈ seen ∨ k ∈ (loadValid rows seen).1.map rowKey := by
  intro rows
  induction rows with
  | nil => intro seen k; simp [loadValid]
  | cons a rs ih =>
    intro seen k
    rw [loadValid]
    split
    · simp only [List.map_cons, List.mem_cons]
      rw [ih (rowKey a :: seen) k]
      simp only [List.mem_cons]
      tauto
    · exact ih seen k

theorem loadValid_nodup : ∀ (rows : List Row) (seen : List String),
    ((loadValid rows seen).1.map rowKey).Nodup := by
  intro rows
  induction rows with
  | nil => intro seen; simp [loadValid]
  | cons a rs ih =>
    intro seen
    rw [loadValid]
    split
    · simp only [List.map_cons, List.nodup_cons]
      refine ⟨?_, ih (rowKey a :: seen)⟩
      intro hmem
      rcases List.mem_map.mp hmem with ⟨r, hr, hkey⟩
      obtain ⟨-, hk⟩ := loadValid_mem rs (rowKey a :: seen) r hr
      exact hk (hkey ▸ List.mem_cons_self _ _)
    · exact ih seen

theorem loadValid_complete : ∀ (rows : List Row) (seen : List String) (r : Row),
    r ∈ rows → isValidRow r →
      rowKey r ∈ seen ∨ rowKey r ∈ (loadValid rows seen).1.map rowKey := by
  intro rows
  induction rows with
  | nil => intro seen r h; exact absurd h (List.not_mem_nil r)
  | cons a rs ih =>
    intro seen r hmem hv
    rw [loadValid]
    rcases List.mem_cons.mp hmem with h1 | h1
    · subst h1
      split
      · right
        simp
      · rename_i hcond
        rcases not_and_or.mp hcond with hbad | hseen
        · exact absurd hv hbad
        · exact Or.inl (not_not.mp hseen)
    · split
      · rcases ih (rowKey a :: seen) r h1 hv with h2 | h2
        · rcases List.mem_cons.mp h2 with h3 | h3
          · right
            simp [h3]
          · exact Or.inl h3
        · right
          simp only [List.map_cons, List.mem_cons]
          exact Or.inr h2
      · exact ih seen r h1 hv

theorem loadValid_id : ∀ (rows : List Row) (seen : List String),
    (∀ r ∈ rows, isValidRow r) → (rows.map rowKey).Nodup →
      (∀ r ∈ rows, rowKey r ∉ seen) → (loadValid rows seen).1 = rows := by
  intro rows
  induction rows with
  | nil => intro seen _ _ _; rfl
  | cons a rs ih =>
    intro seen hv hnd hs
    rw [loadValid]
    rw [if_pos ⟨hv a (List.mem_cons_self a rs), hs a (List.mem_cons_self a rs)⟩]
    simp only [List.cons.injEq, true_and]
    simp only [List.map_cons, List.nodup_cons] at hnd
    refine ih (rowKey a :: seen) (fun r hr => hv r (List.mem_cons_of_mem _ hr)) hnd.2 ?_
    intro r hr hmem
    rcases List.mem_cons.mp hmem with h1 | h1
    · exact hnd.1 (h1 ▸ List.mem_map_of_mem rowKey hr)
    · exact hs r (List.mem_cons_of_mem _ hr) h1

theorem addNew_mem : ∀ (nd : List (String × String)) (seen : List String) (r : Row),
    r ∈ (addNew nd seen).1 → isValidRow r ∧ rowKey r ∉ seen := by
  intro nd
  induction nd with
  | nil => intro seen r h; simp [addNew] at h
  | cons tv rest ih =>
    intro seen r h
    obtain ⟨t, v⟩ := tv
    rw [addNew] at h
    split at h
    · rename_i hcond
      rcases List.mem_cons.mp h with h1 | h1
      · subst h1
        exact ⟨⟨by simp, hcond.2⟩, hcond.1⟩
      · obtain ⟨hv, hk⟩ := ih (t :: seen) r h1
        exact ⟨hv, fun hmem => hk (List.mem_cons_of_mem _ hmem)⟩
    · exact ih seen r h

theorem addNew_nodup : ∀ (nd : List (String × String)) (seen : List String),
    ((addNew nd seen).1.map rowKey).Nodup := by
  intro nd
  induction nd with
  | nil => intro seen; simp [addNew]
  | cons tv rest ih =>
    intro seen
    obtain ⟨t, v⟩ := tv
    rw [addNew]
    split
    · simp only [List.map_cons, List.nodup_cons]
      refine ⟨?_, ih (t :: seen)⟩
      intro hmem
      rcases List.mem_map.mp hmem with ⟨r, hr, hkey⟩
      obtain ⟨-, hk⟩ := addNew_mem rest (t :: seen) r hr
      refine hk ?_
      rw [hkey]
      exact List.mem_cons_self _ _
    · exact ih seen

theorem addNew_covers : ∀ (nd : List (String × String)) (seen : List String)
    (t : String) (v : String), (t, v) ∈ nd → t.length = 9 →
      t ∈ seen ∨ t ∈ (addNew nd seen).1.map rowKey := by
  intro nd
  induction nd with
  | nil => intro seen t v h; exact fun _ => absurd h (List.not_mem_nil _)
  | cons tv rest ih =>
    intro seen t v hmem hlen
    obtain ⟨t2, v2⟩ := tv
    rw [addNew]
    rcases List.mem_cons.mp hmem with h1 | h1
    · cases h1
      by_cases hseen : t ∈ seen
      · exact Or.inl hseen
      · rw [if_pos ⟨hseen, hlen⟩]
        right
        simp [rowKey]
    · split
      · rcases ih (t2 :: seen) t v h1 hlen with h2 | h2
        · rcases List.mem_cons.mp h2 with h3 | h3
          · right
            simp [rowKey, h3]
          · exact Or.inl h3
        · right
          simp only [List.map_cons, List.mem_cons]
          exact Or.inr h2
      · exact ih seen t v h1 hlen

theorem addNew_nil : ∀ (nd : List (String × String)) (seen : List String),
    (∀ t v, (t, v) ∈ nd → t.length = 9 → t ∈ seen) → (addNew nd seen).1 = [] := by
  intro nd
  induction nd with
  | nil => intro seen _; rfl
  | cons tv rest ih =>
    intro seen hyp
    obtain ⟨t2, v2⟩ := tv
    rw [addNew]
    rw [if_neg ?_]
    · exact ih seen (fun t v hm hl => hyp t v (List.mem_cons_of_mem _ hm) hl)
    · rintro ⟨hnot, hl⟩
      exact hnot (hyp t2 v2 (List.mem_cons_self _ _) hl)

theorem rowLe_trans : ∀ (a b c : Row), rowLe a b → rowLe b c → rowLe a c := by
  intro a b c h1 h2
  simp only [rowLe, decide_eq_true_eq] at h1 h2 ⊢
  exact le_trans h1 h2

theorem rowLe_total : ∀ (a b : Row), rowLe a b || rowLe b a := by
  intro a b
  simp only [rowLe, Bool.or_eq_true, decide_eq_true_eq]
  exact le_total _ _

theorem merged_valid (existing : List Row) (nd : List (String × String)) :
    ∀ r ∈ (loadValid existing []).1 ++ (addNew nd (loadValid existing []).2).1,
      isValidRow r := by
  intro r hr
  rcases List.mem_append.mp hr with h | h
  · exact (loadValid_mem existing [] r h).1
  · exact (addNew_mem nd (loadValid existing []).2 r h).1

theorem merged_nodup (existing : List Row) (nd : List (String × String)) :
    (((loadValid existing []).1 ++ (addNew nd (loadValid existing []).2).1).map
      rowKey).Nodup := by
  rw [List.map_append, List.nodup_append]
  refine ⟨loadValid_nodup existing [], addNew_nodup nd _, ?_⟩
  intro k hk1 hk2
  rcases List.mem_map.mp hk2 with ⟨r, hr, hkey⟩
  obtain ⟨-, hk⟩ := addNew_mem nd (loadValid existing []).2 r hr
  refine hk ?_
  rw [hkey]
  rw [loadValid_seen existing [] k]
  exact Or.inr hk1

theorem append_to_csv_perm (existing : List Row) (nd : List (String × String)) :
    (append_to_csv existing nd).Perm
      ((loadValid existing []).1 ++ (addNew nd (loadValid existing []).2).1) :=
  List.mergeSort_perm _ _

theorem append_to_csv_valid (existing : List Row) (nd : List (String × String)) :
    ∀ r ∈ append_to_csv existing nd, isValidRow r := by
  intro r hr
  exact merged_valid existing nd r ((append_to_csv_perm existing nd).mem_iff.mp hr)

theorem append_to_csv_nodup (existing : List Row) (nd : List (String × String)) :
    ((append_to_csv existing nd).map rowKey).Nodup :=
  (((append_to_csv_perm existing nd).map rowKey).nodup_iff).mpr
    (merged_nodup existing nd)

theorem append_to_csv_sorted (existing : List Row) (nd : List (String × String)) :
    (append_to_csv existing nd).Pairwise (fun a b => rowLe a b) :=
  List.sorted_mergeSort rowLe_trans rowLe_total _

example (existing : List Row) (nd : List (String × String)) :
    List.mergeSort (append_to_csv existing nd) rowLe = append_to_csv existing nd :=
  List.mergeSort_of_sorted (append_to_csv_sorted existing nd)

/-- a well-formed persisted series: every row valid and no duplicate date
keys (every file produced by append_to_csv has this shape). -/
def WellFormedSeries (rows : List Row) : Prop :=
  (∀ r ∈ rows, isValidRow r) ∧ (rows.map rowKey).Nodup

/-- claim C4: merging new points into a loaded well-formed series never
changes the stored record of a date key that is already present: every
pre-existing row survives the merge unchanged, and any row of the merged
output that carries an existing key is that very pre-existing row, so an
incoming point with a duplicate key is discarded. -/
theorem claim_C4_existing_wins (existing : List Row) (new_data : List (String × String))
    (hwf : WellFormedSeries existing) :
    ∀ r ∈ existing,
      r ∈ append_to_csv existing new_data ∧
        ∀ r2 ∈ append_to_csv existing new_data, rowKey r2 = rowKey r → r2 = r := by
  obtain ⟨hv, hnd⟩ := hwf
  have hload : (loadValid existing []).1 = existing :=
    loadValid_id existing [] hv hnd (by simp)
  intro r hr
  have hmem : r ∈ append_to_csv existing new_data := by
    refine (append_to_csv_perm existing new_data).mem_iff.mpr ?_
    refine List.mem_append_left _ ?_
    rw [hload]
    exact hr
  refine ⟨hmem, ?_⟩
  intro r2 h2 hkey
  exact List.inj_on_of_nodup_map (append_to_csv_nodup existing new_data) h2 hmem hkey

/-- witness for claim C4 at the concrete instance of the claim: series
20240101T -> 5.0 merged with the incoming point (20240101T, 9.9) keeps the
row with value 5.0 and admits no other row for that key. -/
theorem claim_C4_witness :
    (["20240101T", "5.0", "5.0", "5.0", "5.0", "0"] ∈
        append_to_csv [["20240101T", "5.0", "5.0", "5.0", "5.0", "0"]]
          [("20240101T", "9.9")]) ∧
      ∀ r2 ∈ append_to_csv [["20240101T", "5.0", "5.0", "5.0", "5.0", "0"]]
          [("20240101T", "9.9")],
        rowKey r2 = rowKey ["20240101T", "5.0", "5.0", "5.0", "5.0", "0"] →
          r2 = ["20240101T", "5.0", "5.0", "5.0", "5.0", "0"] :=
  claim_C4_existing_wins [["20240101T", "5.0", "5.0", "5.0", "5.0", "0"]] [("20240101T", "9.9")]
    (by constructor
        · intro r hr
          rcases List.mem_cons.mp hr with h | h
          · subst h; exact ⟨by norm_num, by decide⟩
          · exact absurd h (List.not_mem_nil r)
        · decide)
    ["20240101T", "5.0", "5.0", "5.0", "5.0", "0"] (by simp)

/-- claim C5: the merge-and-persist operation is idempotent: appending the
same new points to the already-merged persisted series is a no-op. -/
theorem claim_C5_merge_idempotent (existing : List Row) (new_data : List (String × String)) :
    append_to_csv (append_to_csv existing new_data) new_data =
      append_to_csv existing new_data := by
  set out := append_to_csv existing new_data with hout
  have hvalid : ∀ r ∈ out, isValidRow r := append_to_csv_valid existing new_data
  have hnodup : (out.map rowKey).Nodup := append_to_csv_nodup existing new_data
  have hload2 : (loadValid out []).1 = out := loadValid_id out [] hvalid hnodup (by simp)
  have hcov : ∀ t v, (t, v) ∈ new_data → t.length = 9 → t ∈ (loadValid out []).2 := by
    intro t v hmem hlen
    rw [loadValid_seen out [] t, hload2]
    right
    have h1 : t ∈ ((loadValid existing []).1 ++
        (addNew new_data (loadValid existing []).2).1).map rowKey := by
      rw [List.map_append, List.mem_append]
      rcases addNew_covers new_data (loadValid existing []).2 t v hmem hlen with h2 | h2
      · rw [loadValid_seen existing [] t] at h2
        rcases h2 with h3 | h3
        · exact absurd h3 (List.not_mem_nil t)
        · exact Or.inl h3
      · exact Or.inr h2
    exact ((append_to_csv_perm existing new_data).map rowKey).mem_iff.mpr h1
  have hnil : (addNew new_data (loadValid out []).2).1 = [] :=
    addNew_nil new_data _ (fun t v hm hl => hcov t v hm hl)
  show List.mergeSort ((loadValid out []).1 ++ (addNew new_data (loadValid out []).2).1) rowLe = out
  rw [hload2, hnil, List.append_nil]
  exact List.mergeSort_of_sorted (append_to_csv_sorted existing new_data)

/-- claim C7: round-trip: loading a persisted merged series reproduces
exactly the persisted rows, and the persisted rows are strictly ascending in
their date keys (hence sorted with no duplicate dates). -/
theorem claim_C7_round_trip (existing : List Row) (new_data : List (String × String)) :
    (loadValid (append_to_csv existing new_data) []).1 =
        append_to_csv existing new_data ∧
      (append_to_csv existing new_data).Pairwise
        (fun a b => rowKey a < rowKey b) := by
  have hvalid := append_to_csv_valid existing new_data
  have hnodup := append_to_csv_nodup existing new_data
  refine ⟨loadValid_id _ [] hvalid hnodup (by simp), ?_⟩
  have hle : (append_to_csv existing new_data).Pairwise (fun a b => rowLe a b) :=
    append_to_csv_sorted existing new_data
  have hne : (append_to_csv existing new_data).Pairwise
      (fun a b => rowKey a ≠ rowKey b) :=
    List.pairwise_map.mp hnodup
  refine (hle.and hne).imp ?_
  rintro a b ⟨h1, h2⟩
  simp only [rowLe, decide_eq_true_eq] at h1
  exact lt_of_le_of_ne h1 h2

/-- Spec-side description of the load phase (spec section 4.4 Load): keep the
first row for each date key, dropping later duplicates.  Used to state claim
C8 as a refinement: the implementation loadValid equals filtering out the
malformed rows and then keeping the first row per key. -/
def keepFirstByKey : List Row → List String → List Row
  | [], _ => []
  | r :: rs, seen =>
    if rowKey r ∈ seen then keepFirstByKey rs seen
    else r :: keepFirstByKey rs (rowKey r :: seen)

/-- the loader of append_to_csv is total and equals the spec-side
filter-then-first-dedup: it skips each row with fewer than 6 columns or a
date key that is not 9 characters, keeps the first row per date key, its
output rows are all valid with distinct keys, and every valid input row has
its key represented in the output. -/
theorem loadValid_spec (rows : List Row) :
    (loadValid rows []).1 =
        keepFirstByKey (rows.filter (fun r => decide (isValidRow r))) [] ∧
      (∀ r ∈ (loadValid rows []).1, isValidRow r) ∧
      ((loadValid rows []).1.map rowKey).Nodup ∧
      (∀ r ∈ rows, isValidRow r → rowKey r ∈ (loadValid rows []).1.map rowKey) := by
  have hgen : ∀ (l : List Row) (seen : List String),
      (loadValid l seen).1 = keepFirstByKey (l.filter (fun r => decide (isValidRow r))) seen := by
    intro l
    induction l with
    | nil => intro seen; rfl
    | cons a rs ih =>
      intro seen
      rw [loadValid]
      by_cases hv : isValidRow a
      · rw [List.filter_cons_of_pos (by simpa using hv)]
        by_cases hs : rowKey a ∈ seen
        · rw [if_neg (by rintro ⟨-, h2⟩; exact h2 hs), keepFirstByKey, if_pos hs]
          exact ih seen
        · rw [if_pos ⟨hv, hs⟩, keepFirstByKey, if_neg hs]
          simp only [List.cons.injEq, true_and]
          exact ih (rowKey a :: seen)
      · rw [List.filter_cons_of_neg (by simpa using hv), if_neg (by rintro ⟨h1, -⟩; exact hv h1)]
        exact ih seen
  refine ⟨hgen rows [], fun r hr => (loadValid_mem rows [] r hr).1,
    loadValid_nodup rows [], ?_⟩
  intro r hr hv
  rcases loadValid_complete rows [] r hr hv with h | h
  · exact absurd h (List.not_mem_nil _)
  · exact h

theorem loadValid_spec_example :
    (loadValid [["20240101T", "5.0", "5.0", "5.0", "5.0", "0"], ["bad"],
        ["20240101T", "9.9", "9.9", "9.9", "9.9", "0"],
        ["20240102T", "7.0", "7.0", "7.0", "7.0", "0"]] []).1 =
      [["20240101T", "5.0", "5.0", "5.0", "5.0", "0"],
        ["20240102T", "7.0", "7.0", "7.0", "7.0", "0"]] := by
  decide




/-! ## Persistence trace, from the write phase of append_to_csv
(src/webendpoint_json_data.py, lines 192-196) and of write_csv
(src/main.py, lines 196-217)

The Python code persists with a plain open(csv_file, "w") followed by one
writerow per merged row: opening with mode "w" truncates the target file in
place before anything is written.  The trace of file-system operations the
code performs is modelled explicitly so that the atomic-replace question of
claim C9 can be stated. -/

/-- a file-system operation on the series file. -/
inductive FsOp where
  | openTrunc (path : String)
  | writeRow (row : Row)
  | closeFile
  | renameFile (src dst : String)

/-- whether an operation is a rename (the operation atomic replace would
need; the code never performs one). -/
def FsOp.isRename : FsOp → Bool
  | .renameFile _ _ => true
  | _ => false

/-- the exact operation trace of the persist phase: truncating open of the
target path, one write per row, close.  No temporary file and no rename
appear anywhere in the source. -/
def persistOps (path : String) (rows : List Row) : List FsOp :=
  FsOp.openTrunc path :: (rows.map FsOp.writeRow ++ [FsOp.closeFile])

/-- effect of a trace on the content of the target file, starting from the
given prior content; a truncating open discards the prior content at once. -/
def runOps (content : List Row) : List FsOp → List Row
  | [] => content
  | FsOp.openTrunc _ :: rest => runOps [] rest
  | FsOp.writeRow r :: rest => runOps (content ++ [r]) rest
  | FsOp.closeFile :: rest => runOps content rest
  | FsOp.renameFile _ _ :: rest => runOps content rest

theorem runOps_writes (rows : List Row) :
    ∀ content, runOps content (rows.map FsOp.writeRow ++ [FsOp.closeFile]) = content ++ rows := by
  induction rows with
  | nil => intro content; simp [runOps]
  | cons r rs ih =>
    intro content
    simp only [List.map_cons, List.cons_append, runOps, List.append_eq]
    rw [ih (content ++ [r])]
    simp

theorem persistOps_no_rename (path : String) (rows : List Row) :
    (persistOps path rows).all (fun op => ! op.isRename) = true := by
  simp [persistOps, List.all_map, FsOp.isRename, Function.comp]

/-- claim C9 amended: persisting a merged series performs no rename at all;
it opens the target file in truncating write mode and writes the rows
directly, so only the complete trace reproduces the merged series, while a
failure immediately after the open leaves the file empty rather than
untouched. -/
theorem claim_C9_amended (path : String) (rows : List Row) (prior : List Row) :
    (persistOps path rows).all (fun op => ! op.isRename) = true ∧
    runOps prior (persistOps path rows) = rows ∧
    runOps prior ((persistOps path rows).take 1) = [] := by
  refine ⟨persistOps_no_rename path rows, ?_, ?_⟩
  · simp only [persistOps, runOps]
    rw [runOps_writes rows []]
    simp
  · simp [persistOps, runOps]

/-- claim C9 fails as stated: at a concrete one-row prior file and a concrete
two-row merged series, the persist trace contains no rename, and the file
content after the truncating open (the state if the write then fails) is
empty, not the previously persisted row. -/
theorem claim_C9_counterexample :
    ((persistOps ("data/EURUSDSENTIMENT.csv")
        [["20240101T", "5.0", "5.0", "5.0", "5.0", "0"],
         ["20240102T", "7.0", "7.0", "7.0", "7.0", "0"]]).all
      (fun op => ! op.isRename) = true) ∧
    runOps [["20240101T", "5.0", "5.0", "5.0", "5.0", "0"]]
        ((persistOps ("data/EURUSDSENTIMENT.csv")
          [["20240101T", "5.0", "5.0", "5.0", "5.0", "0"],
           ["20240102T", "7.0", "7.0", "7.0", "7.0", "0"]]).take 1) ≠
      [["20240101T", "5.0", "5.0", "5.0", "5.0", "0"]] := by
  constructor
  · decide
  · decide
/-! ## SentimentProcessor.parse_json, from src/main.py (lines 69-136)

parse_json reads entries carrying a pair name, a timestamp parsed with
strptime as %Y-%m-%dT%H:%M, and a sentiment percentage; the timestamp is
reformatted with strftime as %Y%m%dT, collapsing all times of one calendar
day onto one day key.  data_by_pair is a Python dict of dicts; dicts are
modelled as insertion-ordered association lists, where assignment replaces
in place an existing key and appends a missing one. -/

/-- the fields of a timestamp parsed with %Y-%m-%dT%H:%M. -/
structure Stamp where
  year : ℕ
  month : ℕ
  day : ℕ
  hour : ℕ
  minute : ℕ

/-- two-digit zero padding of strftime %m and %d. -/
def pad2 (n : ℕ) : String := if n < 10 then "0" ++ toString n else toString n

/-- four-digit zero padding of strftime %Y. -/
def pad4 (n : ℕ) : String :=
  if n < 10 then "000" ++ toString n
  else if n < 100 then "00" ++ toString n
  else if n < 1000 then "0" ++ toString n
  else toString n

/-- strftime %Y%m%dT: the day key of a timestamp; the hour and minute are
discarded. -/
def dayKey (t : Stamp) : String := pad4 t.year ++ pad2 t.month ++ pad2 t.day ++ "T"

/-- one standard-structure JSON entry as parse_json consumes it: pair,
timestamp and sentiment_percent. -/
structure SentimentEntry where
  pair : String
  timestamp : Stamp
  sentiment_percent : ℚ

/-- dictionary read: the value stored at a key, if present. -/
def lookupA {β : Type} (k : String) : List (String × β) → Option β
  | [] => none
  | (k2, v) :: rest => if k2 = k then some v else lookupA k rest

/-- dictionary assignment d[k] = v: replaces in place when the key exists,
appends at the end otherwise (Python dicts preserve insertion order). -/
def setA {β : Type} (k : String) (v : β) : List (String × β) → List (String × β)
  | [] => [(k, v)]
  | (k2, v2) :: rest => if k2 = k then (k, v) :: rest else (k2, v2) :: setA k v rest

/-- Embedding of the body of the standard-structure loop of parse_json
(main.py, lines 107-127): entries with a falsy pair are skipped; a first
sentiment for a day key is stored as round(sentiment, 1); a repeated day key
replaces the stored value with round((stored + sentiment) / 2, 1). -/
def parseStep (acc : List (String × List (String × ℚ))) (e : SentimentEntry) :
    List (String × List (String × ℚ)) :=
  if e.pair = ("") then acc
  else
    let key := dayKey e.timestamp
    let inner := (lookupA e.pair acc).getD []
    match lookupA key inner with
    | some existing_sentiment =>
        setA e.pair (setA key (round1 ((existing_sentiment + e.sentiment_percent) / 2)) inner) acc
    | none =>
        setA e.pair (setA key (round1 e.sentiment_percent) inner) acc

/-- Embedding of SentimentProcessor.parse_json restricted to
standard-structure entries: fold the entries into data_by_pair, starting
from the empty dict of the constructor. -/
def parse_json (entries : List SentimentEntry) : List (String × List (String × ℚ)) :=
  entries.foldl parseStep []

/-- the running pairwise average rounded to one decimal at every step: the
value parse_json keeps for a day that saw the sentiments v, vs in order. -/
def runningAvg (v : ℚ) (vs : List ℚ) : ℚ :=
  vs.foldl (fun acc w => round1 ((acc + w) / 2)) (round1 v)

theorem lookupA_setA_self {β : Type} (k : String) (v : β) (l : List (String × β)) :
    lookupA k (setA k v l) = some v := by
  induction l with
  | nil => simp [setA, lookupA]
  | cons kv rest ih =>
    obtain ⟨k2, v2⟩ := kv
    rw [setA]
    by_cases h : k2 = k
    · rw [if_pos h, lookupA, if_pos rfl]
    · rw [if_neg h, lookupA, if_neg h]
      exact ih

theorem parse_fold_aux :
    ∀ (tods : List Stamp) (vs : List ℚ) (p : String) (key : String)
      (acc : List (String × List (String × ℚ))) (inner : List (String × ℚ)) (c : ℚ),
      p ≠ ("") → tods.length = vs.length → (∀ s ∈ tods, dayKey s = key) →
      lookupA p acc = some inner → lookupA key inner = some c →
      (lookupA p (List.foldl parseStep acc
          (List.zipWith (fun s w => SentimentEntry.mk p s w) tods vs))).bind
        (lookupA key) = some (vs.foldl (fun a w => round1 ((a + w) / 2)) c) := by
  intro tods
  induction tods with
  | nil =>
    intro vs p key acc inner c hp hlen hday haccp hinner
    cases vs with
    | nil =>
      simp only [List.zipWith_nil_right, List.foldl_nil]
      rw [haccp]
      simpa using hinner
    | cons w ws => simp at hlen
  | cons s ss ih =>
    intro vs p key acc inner c hp hlen hday haccp hinner
    cases vs with
    | nil => simp at hlen
    | cons w ws =>
      simp only [List.zipWith_cons_cons, List.foldl_cons]
      have hps : parseStep acc (SentimentEntry.mk p s w) =
          setA p (setA key (round1 ((c + w) / 2)) inner) acc := by
        unfold parseStep
        rw [if_neg hp]
        simp only []
        rw [hday s (List.mem_cons_self s ss), haccp]
        simp only [Option.getD_some]
        rw [hinner]
      rw [hps]
      have hrest := ih ws p key (setA p (setA key (round1 ((c + w) / 2)) inner) acc)
        (setA key (round1 ((c + w) / 2)) inner) (round1 ((c + w) / 2)) hp
        (by simpa using hlen) (fun s2 hs2 => hday s2 (List.mem_cons_of_mem s hs2))
        (lookupA_setA_self p _ acc) (lookupA_setA_self key _ inner)
      simpa using hrest

/-- claim C10: when one parsed input holds several entries for the same pair
whose timestamps all collapse onto the same day key, parse_json keeps
neither the first nor the last sentiment: the stored value is the running
pairwise average, rounded to one decimal at every step. -/
theorem claim_C10 (p : String) (t : Stamp) (tods : List Stamp) (v : ℚ) (vs : List ℚ)
    (hp : p ≠ ("")) (hlen : tods.length = vs.length)
    (hday : ∀ s ∈ tods, dayKey s = dayKey t) :
    (lookupA p (parse_json
        (SentimentEntry.mk p t v :: List.zipWith (fun s w => SentimentEntry.mk p s w) tods vs))).bind
      (lookupA (dayKey t)) = some (runningAvg v vs) := by
  unfold parse_json
  simp only [List.foldl_cons]
  have hfirst : parseStep [] (SentimentEntry.mk p t v) =
      [(p, [(dayKey t, round1 v)])] := by
    unfold parseStep
    rw [if_neg hp]
    simp [lookupA, setA]
  rw [hfirst]
  exact parse_fold_aux tods vs p (dayKey t) [(p, [(dayKey t, round1 v)])]
    [(dayKey t, round1 v)] (round1 v) hp hlen hday (by simp [lookupA]) (by simp [lookupA])

/-- witness for claim C10: three same-day entries 10, 20, 50 for one pair
(at 09:30, 12:00 and 23:59) are stored as round((round((10 + 20)/2) + 50)/2)
= 32.5, which is neither the first value 10 nor the last value 50. -/
theorem claim_C10_witness :
    (lookupA ("EURUSD") (parse_json
        [SentimentEntry.mk ("EURUSD") (Stamp.mk 2024 1 1 9 30) 10,
         SentimentEntry.mk ("EURUSD") (Stamp.mk 2024 1 1 12 0) 20,
         SentimentEntry.mk ("EURUSD") (Stamp.mk 2024 1 1 23 59) 50])).bind
      (lookupA (dayKey (Stamp.mk 2024 1 1 9 30))) = some (65 / 2) ∧
    (65 / 2 : ℚ) ≠ 10 ∧ (65 / 2 : ℚ) ≠ 50 := by
  refine ⟨?_, by norm_num, by norm_num⟩
  have h := claim_C10 ("EURUSD") (Stamp.mk 2024 1 1 9 30)
    [Stamp.mk 2024 1 1 12 0, Stamp.mk 2024 1 1 23 59] 10 [20, 50]
    (by simp) rfl (by intro s hs; fin_cases hs <;> rfl)
  rw [show (List.zipWith (fun s w => SentimentEntry.mk ("EURUSD") s w)
      [Stamp.mk 2024 1 1 12 0, Stamp.mk 2024 1 1 23 59] [(20 : ℚ), 50]) =
      [SentimentEntry.mk ("EURUSD") (Stamp.mk 2024 1 1 12 0) 20,
       SentimentEntry.mk ("EURUSD") (Stamp.mk 2024 1 1 23 59) 50] from rfl] at h
  rw [h]
  have e1 : round1 10 = 10 := by
    rw [round1_eq_of_mul_ten 10 100 (by norm_num)]
    norm_num
  have e2 : round1 ((10 + 20) / 2 : ℚ) = 15 := by
    rw [round1_eq_of_mul_ten _ 150 (by norm_num)]
    norm_num
  have e3 : round1 ((15 + 50) / 2 : ℚ) = 65 / 2 := by
    rw [round1_eq_of_mul_ten _ 325 (by norm_num)]
    norm_num
  have h1 : runningAvg 10 [20, 50] = 65 / 2 := by
    unfold runningAvg
    simp only [List.foldl_cons, List.foldl_nil]
    rw [e1, e2, e3]
  rw [h1]

/-! ## The loader of SentimentProcessor.write_csv (src/main.py, lines 154-168)

Claim C8 cites two loaders.  The append_to_csv loader is loadValid above.
The write_csv loader is different: for each row it checks only
len(row) >= 6, then computes float(row[1]) and assigns
existing_data[row[0]] = (sentiment, row[2], row[3], row[4], row[5]) into a
Python dict.  There is no date-key length check, a duplicated key is
overwritten (the last row read wins), and if float(row[1]) raises
ValueError the exception propagates out of the loop to the outer except
handler, so loading stops there: the rows already read stay in the dict and
every later row, valid or not, is dropped. -/

/-- value of a digit string read left to right. -/
def digitsToNat (l : List Char) : ℕ :=
  l.foldl (fun acc c => acc * 10 + (c.toNat - 48)) 0

/-- unsigned part of the Python builtin float() on a plain decimal string:
digits with an optional single decimal point, at least one digit in total;
none models a ValueError.  (Exponents, specials and surrounding whitespace,
which Python float() also accepts, never occur in these files.) -/
def pyFloatCore (l : List Char) : Option ℚ :=
  let intPart := l.takeWhile Char.isDigit
  let rest := l.dropWhile Char.isDigit
  match rest with
  | [] => if intPart.isEmpty then none else some ((digitsToNat intPart : ℕ) : ℚ)
  | c :: tail =>
      if c = ('.') ∧ tail.all Char.isDigit = true ∧ (intPart ≠ [] ∨ tail ≠ []) then
        some ((digitsToNat intPart : ℚ) + (digitsToNat tail : ℚ) / 10 ^ tail.length)
      else none

/-- the Python builtin float() on a CSV field, with an optional sign; none
models a raised ValueError. -/
def pyFloat? (s : String) : Option ℚ :=
  match s.data with
  | [] => none
  | c :: rest =>
      if c = ('-') then (pyFloatCore rest).map (fun q => -q)
      else if c = ('+') then pyFloatCore rest
      else pyFloatCore (c :: rest)

/-- Embedding of the load phase of SentimentProcessor.write_csv (main.py,
lines 154-168): rows with fewer than 6 fields are skipped individually (the
only filter: there is no date-key check); for the rest, float(row[1]) is
parsed and the dict entry for row[0] is assigned, overwriting any earlier
row with the same key; when float() raises, the loop is abandoned and the
rows read so far are returned (the outer except handler logs and keeps the
partially filled dict). -/
def write_csv_load :
    List Row → List (String × (ℚ × List String)) → List (String × (ℚ × List String))
  | [], acc => acc
  | r :: rs, acc =>
    if 6 ≤ r.length then
      match pyFloat? (r.getD 1 ("")) with
      | some q => write_csv_load rs (setA (rowKey r) (q, (r.drop 2).take 4) acc)
      | none => acc
    else
      write_csv_load rs acc

/-- claim C8 fails as stated on the loader of SentimentProcessor.write_csv,
which the claim also cites: in a concrete five-row file, the 6-column row
with the malformed 3-character key BAD is loaded rather than skipped, the
duplicated key 20240101T retains the columns of the later row (last wins,
not first-seen), and the row whose value column abc makes float() raise
stops the load, so the later valid row 20240103T is not loaded. -/
theorem claim_C8_counterexample :
    ((write_csv_load
        [["20240101T", "5.0", "5.0", "5.0", "5.0", "0"],
         ["20240101T", "9.9", "9.8", "9.8", "9.8", "1"],
         ["BAD", "1.0", "1.0", "1.0", "1.0", "0"],
         ["20240102T", "abc", "7.0", "7.0", "7.0", "0"],
         ["20240103T", "8.0", "8.0", "8.0", "8.0", "0"]] []).map Prod.fst =
      ["20240101T", "BAD"]) ∧
    ((lookupA ("20240101T") (write_csv_load
        [["20240101T", "5.0", "5.0", "5.0", "5.0", "0"],
         ["20240101T", "9.9", "9.8", "9.8", "9.8", "1"],
         ["BAD", "1.0", "1.0", "1.0", "1.0", "0"],
         ["20240102T", "abc", "7.0", "7.0", "7.0", "0"],
         ["20240103T", "8.0", "8.0", "8.0", "8.0", "0"]] [])).map (fun p => p.2) =
      some ["9.8", "9.8", "9.8", "1"]) ∧
    (lookupA ("20240103T") (write_csv_load
        [["20240101T", "5.0", "5.0", "5.0", "5.0", "0"],
         ["20240101T", "9.9", "9.8", "9.8", "9.8", "1"],
         ["BAD", "1.0", "1.0", "1.0", "1.0", "0"],
         ["20240102T", "abc", "7.0", "7.0", "7.0", "0"],
         ["20240103T", "8.0", "8.0", "8.0", "8.0", "0"]] []) = none) := by
  refine ⟨?_, ?_, ?_⟩ <;> decide

/-- claim C8 amended: the append_to_csv loader satisfies the claim as
stated: it is total, equals the spec-side filter-then-first-dedup (rows
with fewer than 6 columns or a non-9-character key skipped individually,
first-seen-wins on duplicate keys), yields valid rows with distinct keys,
and loads every remaining valid row.  The write_csv loader does not: a row
with at least 6 columns is loaded regardless of its date-key shape and
overwrites any earlier row with the same key (last wins), and a row whose
value column is not a parseable float ends the load at once, keeping only
the rows already read and dropping every later row. -/
theorem claim_C8_amended :
    (∀ rows : List Row,
        (loadValid rows []).1 =
            keepFirstByKey (rows.filter (fun r => decide (isValidRow r))) [] ∧
          (∀ r ∈ (loadValid rows []).1, isValidRow r) ∧
          ((loadValid rows []).1.map rowKey).Nodup ∧
          (∀ r ∈ rows, isValidRow r → rowKey r ∈ (loadValid rows []).1.map rowKey)) ∧
    (∀ (r : Row) (rs : List Row) (acc : List (String × (ℚ × List String))),
        6 ≤ r.length → pyFloat? (r.getD 1 ("")) = none →
          write_csv_load (r :: rs) acc = acc) ∧
    (∀ (r : Row) (rs : List Row) (acc : List (String × (ℚ × List String))) (q : ℚ),
        6 ≤ r.length → pyFloat? (r.getD 1 ("")) = some q →
          write_csv_load (r :: rs) acc =
            write_csv_load rs (setA (rowKey r) (q, (r.drop 2).take 4) acc)) ∧
    (∀ (k : String) (v : ℚ × List String) (acc : List (String × (ℚ × List String))),
        lookupA k (setA k v acc) = some v) := by
  refine ⟨loadValid_spec, ?_, ?_, fun k v acc => lookupA_setA_self k v acc⟩
  · intro r rs acc hlen hbad
    rw [write_csv_load, if_pos hlen, hbad]
  · intro r rs acc q hlen hq
    rw [write_csv_load, if_pos hlen, hq]

/-- witness for claim C8 amended: a write_csv load that hits the
unparseable value abc returns only what was read before it, dropping the
later valid row; and in the append_to_csv loader a corrupt row does not
block the later valid row, whose key is loaded. -/
theorem claim_C8_witness :
    write_csv_load [["20240102T", "abc", "7.0", "7.0", "7.0", "0"],
        ["20240103T", "8.0", "8.0", "8.0", "8.0", "0"]] [] = [] ∧
    rowKey ["20240102T", "7.0", "7.0", "7.0", "7.0", "0"] ∈
      ((loadValid [["20240101T", "5.0", "5.0", "5.0", "5.0", "0"], ["bad"],
          ["20240102T", "7.0", "7.0", "7.0", "7.0", "0"]] []).1.map rowKey) :=
  ⟨claim_C8_amended.2.1 ["20240102T", "abc", "7.0", "7.0", "7.0", "0"]
      [["20240103T", "8.0", "8.0", "8.0", "8.0", "0"]] [] (by decide) (by decide),
   (claim_C8_amended.1 [["20240101T", "5.0", "5.0", "5.0", "5.0", "0"], ["bad"],
        ["20240102T", "7.0", "7.0", "7.0", "7.0", "0"]]).2.2.2
      ["20240102T", "7.0", "7.0", "7.0", "7.0", "0"] (by decide) (by decide)⟩

end SentimentScraper
